import Mathlib

/-!
Verification of the SdFatWavRK WAV-header codec.

The repository ships the class declarations (`SdFatWavRK.h`); the member
function bodies live in a translation unit that is not part of the sources
available here, so every operation body is modelled from the specification
document, as indicated by its doc comment.  The data model:

* `WavHeaderBase` — a fixed-capacity byte buffer (`data`, whose length is the
  capacity `bufferSize`) plus a write cursor `bufferOffset`.  Bytes are `Nat`
  values `< 256` in well-formed states; multi-byte fields are stored explicitly
  little- or big-endian.
* `SdFatWavWriter` — audio format parameters plus an embedded 44-byte header
  codec, writing to a `FatFile` modelled as a byte list with a position.
-/

namespace SdFatWavRK

/-- The little-endian byte serialization of a 16-bit field (value taken mod 2^16). -/
def u16LEbytes (v : Nat) : List Nat := [v % 256, v / 256 % 256]

/-- The little-endian byte serialization of a 32-bit field (value taken mod 2^32). -/
def u32LEbytes (v : Nat) : List Nat :=
  [v % 256, v / 256 % 256, v / 65536 % 256, v / 16777216 % 256]

/-- The big-endian byte serialization of a 32-bit field (value taken mod 2^32). -/
def u32BEbytes (v : Nat) : List Nat :=
  [v / 16777216 % 256, v / 65536 % 256, v / 256 % 256, v % 256]

/-- The byte stored at index `i` of the buffer contents (0 when out of range;
in-range accesses are the only ones the theorems rely on). -/
def byteAt (data : List Nat) (i : Nat) : Nat := data.getD i 0

/-- Reading a 16-bit little-endian value at a byte offset. -/
def getU16LEAt (data : List Nat) (off : Nat) : Nat :=
  byteAt data off + byteAt data (off + 1) * 256

/-- Reading a 32-bit little-endian value at a byte offset. -/
def getU32LEAt (data : List Nat) (off : Nat) : Nat :=
  byteAt data off + byteAt data (off + 1) * 256 +
    byteAt data (off + 2) * 65536 + byteAt data (off + 3) * 16777216

/-- Reading a 32-bit big-endian value at a byte offset. -/
def getU32BEAt (data : List Nat) (off : Nat) : Nat :=
  byteAt data off * 16777216 + byteAt data (off + 1) * 65536 +
    byteAt data (off + 2) * 256 + byteAt data (off + 3)

/-- Overwriting the bytes at `off .. off + bs.length - 1` with `bs`.
Modelled from the spec: field-level writes are bounds-checked against the
buffer size — they require `offset + fieldWidth ≤ bufferSize` and fail (leave
the buffer unchanged) otherwise, rather than corrupting memory. -/
def setBytes (data : List Nat) (off : Nat) (bs : List Nat) : List Nat :=
  if off + bs.length ≤ data.length then
    data.take off ++ bs ++ data.drop (off + bs.length)
  else
    data

/-- The state of a `WavHeaderBase` object: the buffer contents (the list length
is the capacity `bufferSize`) and the write cursor `bufferOffset`, which the
declared class initializes to 0. -/
structure WavHeaderBase where
  data : List Nat
  bufferOffset : Nat
deriving DecidableEq

/-- Construction of a `WavHeaderBase` over a buffer: `bufferOffset` starts at 0
(default member initializer in the class declaration). -/
def mkWavHeaderBase (init : List Nat) : WavHeaderBase := ⟨init, 0⟩

/-- The size of the header written by `writeHeader` (declared in the header file). -/
def STANDARD_SIZE : Nat := 44

/-- Modelled from the spec: helper converting a 4-character ASCII tag into its
32-bit packed representation used for chunk-id comparisons (first character in
the most significant byte, so that storing the value big-endian reproduces the
ASCII bytes in order). The body of `WavHeaderBase::fourCharStringToValue` is
not among the available sources. -/
def fourCharStringToValue (str : String) : Nat :=
  str.toList.foldl (fun a c => a * 256 + c.toNat) 0

/-- Modelled from the spec: `WavHeaderBase::setUint16LE` stores a 16-bit
little-endian field at a byte offset, bounds-checked against `bufferSize`;
its body is not among the available sources. -/
def setUint16LE (hb : WavHeaderBase) (offset value : Nat) : WavHeaderBase :=
  { hb with data := setBytes hb.data offset (u16LEbytes value) }

/-- Modelled from the spec: `WavHeaderBase::setUint32LE` stores a 32-bit
little-endian field at a byte offset, bounds-checked against `bufferSize`;
its body is not among the available sources. -/
def setUint32LE (hb : WavHeaderBase) (offset value : Nat) : WavHeaderBase :=
  { hb with data := setBytes hb.data offset (u32LEbytes value) }

/-- Modelled from the spec: `WavHeaderBase::setUint32BE` stores a 32-bit
big-endian field at a byte offset, bounds-checked against `bufferSize`;
its body is not among the available sources. -/
def setUint32BE (hb : WavHeaderBase) (offset value : Nat) : WavHeaderBase :=
  { hb with data := setBytes hb.data offset (u32BEbytes value) }

/-- Modelled from the spec: `WavHeaderBase::getUint16LE`; body not among the
available sources. -/
def getUint16LE (hb : WavHeaderBase) (offset : Nat) : Nat := getU16LEAt hb.data offset

/-- Modelled from the spec: `WavHeaderBase::getUint32LE`; body not among the
available sources. -/
def getUint32LE (hb : WavHeaderBase) (offset : Nat) : Nat := getU32LEAt hb.data offset

/-- Modelled from the spec: `WavHeaderBase::getUint32BE`; body not among the
available sources. -/
def getUint32BE (hb : WavHeaderBase) (offset : Nat) : Nat := getU32BEAt hb.data offset

/-- `WavHeaderBase::getBufferOffset` (inline in the header file). -/
def getBufferOffset (hb : WavHeaderBase) : Nat := hb.bufferOffset

/-- `WavHeaderBase::getBufferSize` (inline in the header file): the capacity. -/
def getBufferSize (hb : WavHeaderBase) : Nat := hb.data.length

/-- Modelled from the spec: the 44 bytes serialized by `writeHeader` —
`"RIFF"`, fileSize = 36 + dataSize (LE32), `"WAVE"`, `"fmt "`, 16 (LE32),
audioFormat = 1 (LE16), numChannels (LE16), sampleRate (LE32),
byteRate = sampleRate×numChannels×bitsPerSample/8 (LE32),
blockAlign = numChannels×bitsPerSample/8 (LE16), bitsPerSample (LE16),
`"data"`, dataSize (LE32). -/
def wavHeaderBytes (numChannels sampleRate bitsPerSample dataSizeInBytes : Nat) :
    List Nat :=
  u32BEbytes (fourCharStringToValue "RIFF") ++
  u32LEbytes (36 + dataSizeInBytes) ++
  u32BEbytes (fourCharStringToValue "WAVE") ++
  u32BEbytes (fourCharStringToValue "fmt ") ++
  u32LEbytes 16 ++
  u16LEbytes 1 ++
  u16LEbytes numChannels ++
  u32LEbytes sampleRate ++
  u32LEbytes (sampleRate * numChannels * bitsPerSample / 8) ++
  u16LEbytes (numChannels * bitsPerSample / 8) ++
  u16LEbytes bitsPerSample ++
  u32BEbytes (fourCharStringToValue "data") ++
  u32LEbytes dataSizeInBytes

/-- Modelled from the spec: `WavHeaderBase::writeHeader` (body not among the
available sources). Fails with no partial write if the capacity is below 44;
otherwise resets the cursor to 0, serializes the 44-byte layout at the start of
the buffer, and advances the cursor to 44. -/
def writeHeader (hb : WavHeaderBase)
    (numChannels sampleRate bitsPerSample dataSizeInBytes : Nat) :
    Bool × WavHeaderBase :=
  if hb.data.length < STANDARD_SIZE then
    (false, hb)
  else
    (true,
      { data :=
          setBytes hb.data 0
            (wavHeaderBytes numChannels sampleRate bitsPerSample dataSizeInBytes),
        bufferOffset := STANDARD_SIZE })

/-- Modelled from the spec: `WavHeaderBase::setDataSize` (body not among the
available sources). Overwrites the payload-length field of the `data` chunk
(fixed offset 40) with `dataSizeInBytes` and the RIFF fileSize field (fixed
offset 4) with `36 + dataSizeInBytes`, touching no other byte and not the
cursor. -/
def setDataSize (hb : WavHeaderBase) (dataSizeInBytes : Nat) : WavHeaderBase :=
  setUint32LE (setUint32LE hb 40 dataSizeInBytes) 4 (36 + dataSizeInBytes)

/-- Modelled from the spec: `WavHeaderBase::getDataOffset` (body not among the
available sources) — the offset where sample payload begins, 44 for headers
produced by this codec (for foreign headers callers are told to use
`findChunk` instead). -/
def getDataOffset (_hb : WavHeaderBase) : Nat := STANDARD_SIZE

/-- Modelled from the spec: the scan loop of `WavHeaderBase::findChunk` (body
not among the available sources). At each position it reads the 4-byte
big-endian tag and the 4-byte little-endian length; on a tag match it reports
`(position + 8, length)`; otherwise it advances by `8 + length` (no even-byte
padding). It stops with not-found as soon as reading the 8 descriptor bytes
would pass the end of the buffer. -/
def findChunkAux (data : List Nat) (id : Nat) (offset : Nat) : Option (Nat × Nat) :=
  if _h : offset + 8 ≤ data.length then
    if getU32BEAt data offset = id then
      some (offset + 8, getU32LEAt data (offset + 4))
    else
      findChunkAux data id (offset + 8 + getU32LEAt data (offset + 4))
  else
    none
termination_by data.length - offset
decreasing_by omega

/-- Modelled from the spec: `WavHeaderBase::findChunk` starts the chunk scan at
offset 12 (just past the RIFF+WAVE preamble); `some (chunkDataOffset,
chunkDataSize)` models `true` with the two out-parameters filled in, `none`
models `false`. -/
def findChunk (hb : WavHeaderBase) (id : Nat) : Option (Nat × Nat) :=
  findChunkAux hb.data id 12

/-- Instrumentation of the `findChunk` scan: the list of buffer indices the
scan reads (each position reads the 8 descriptor bytes `offset .. offset+7`
for the tag and the length), used to state bounds-safety of the scan. -/
def findChunkReadsAux (data : List Nat) (id : Nat) (offset : Nat) : List Nat :=
  if _h : offset + 8 ≤ data.length then
    if getU32BEAt data offset = id then
      List.range' offset 8
    else
      List.range' offset 8 ++
        findChunkReadsAux data id (offset + 8 + getU32LEAt data (offset + 4))
  else
    []
termination_by data.length - offset
decreasing_by omega

/-- The storage collaborator: an open, writable, seekable byte stream (the
`FatFile` the writer borrows), modelled as its byte contents plus the current
position. -/
structure FatFile where
  contents : List Nat
  pos : Nat
deriving DecidableEq

/-- Writing bytes to the stream at the current position, overwriting existing
bytes and extending the stream as needed; the position advances past the
written bytes. -/
def fileWrite (f : FatFile) (bs : List Nat) : FatFile :=
  { contents := f.contents.take f.pos ++ bs ++ f.contents.drop (f.pos + bs.length),
    pos := f.pos + bs.length }

/-- Seeking the stream to an absolute offset. -/
def seekSet (f : FatFile) (offset : Nat) : FatFile := { f with pos := offset }

/-- The stream's total length. -/
def fileSize (f : FatFile) : Nat := f.contents.length

/-- The state of an `SdFatWavWriter`: the three audio format parameters and the
embedded header codec, declared in the header file as
`WavHeader<WavHeaderBase::STANDARD_SIZE>` — a codec over an embedded 44-byte
array. -/
structure SdFatWavWriter where
  numChannels : Nat
  sampleRate : Nat
  bitsPerSample : Nat
  header : WavHeaderBase
deriving DecidableEq

/-- Modelled from the spec: the three-argument `SdFatWavWriter` constructor
(body not among the available sources) stores the format parameters; the
embedded `WavHeader<44>` member passes its 44-byte array (`init`, of length 44
in faithful states; the array contents start uninitialized) to the base class,
whose cursor starts at 0. -/
def mkSdFatWavWriter (numChannels sampleRate bitsPerSample : Nat)
    (init : List Nat) : SdFatWavWriter :=
  ⟨numChannels, sampleRate, bitsPerSample, mkWavHeaderBase init⟩

/-- `SdFatWavWriter::withNumChannels` (inline in the header file). -/
def withNumChannels (w : SdFatWavWriter) (numChannels : Nat) : SdFatWavWriter :=
  { w with numChannels := numChannels }

/-- `SdFatWavWriter::withSampleRate` (inline in the header file). -/
def withSampleRate (w : SdFatWavWriter) (sampleRate : Nat) : SdFatWavWriter :=
  { w with sampleRate := sampleRate }

/-- `SdFatWavWriter::withBitsPerSample` (inline in the header file). -/
def withBitsPerSample (w : SdFatWavWriter) (bitsPerSample : Nat) : SdFatWavWriter :=
  { w with bitsPerSample := bitsPerSample }

/-- `SdFatWavWriter::getNumChannels` (inline in the header file). -/
def getNumChannels (w : SdFatWavWriter) : Nat := w.numChannels

/-- `SdFatWavWriter::getSampleRate` (inline in the header file). -/
def getSampleRate (w : SdFatWavWriter) : Nat := w.sampleRate

/-- `SdFatWavWriter::getBitsPerSample` (inline in the header file). -/
def getBitsPerSample (w : SdFatWavWriter) : Nat := w.bitsPerSample

/-- Modelled from the spec: `SdFatWavWriter::startFile` (body not among the
available sources). The file's existing contents are deleted; the codec's
`writeHeader` runs with the configured parameters and `dataSizeInBytes = 0`;
on success the resulting header bytes (`getBuffer()` up to `getBufferOffset()`)
are written to the stream, leaving its position right after the header. -/
def startFile (w : SdFatWavWriter) (_f : FatFile) :
    Bool × SdFatWavWriter × FatFile :=
  let f0 : FatFile := ⟨[], 0⟩
  let res := writeHeader w.header w.numChannels w.sampleRate w.bitsPerSample 0
  if res.1 then
    (true, { w with header := res.2 },
      fileWrite f0 (res.2.data.take res.2.bufferOffset))
  else
    (false, { w with header := res.2 }, f0)

/-- Modelled from the spec: `SdFatWavWriter::updateHeaderFromLength` (body not
among the available sources). Computes `dataSizeInBytes = streamLength −
getDataOffset()`, calls the codec's `setDataSize`, seeks the stream to offset
0 and overwrites the 44 header bytes there. -/
def updateHeaderFromLength (w : SdFatWavWriter) (f : FatFile) :
    Bool × SdFatWavWriter × FatFile :=
  let dataSizeInBytes := fileSize f - getDataOffset w.header
  let h1 := setDataSize w.header dataSizeInBytes
  (true, { w with header := h1 },
    fileWrite (seekSet f 0) (h1.data.take STANDARD_SIZE))

/-- The operations of the `WavHeaderBase` public interface that mutate the
object, used to quantify over every reachable codec state. -/
inductive HeaderOp where
  | opWriteHeader (numChannels sampleRate bitsPerSample dataSizeInBytes : Nat)
  | opSetDataSize (dataSizeInBytes : Nat)
  | opSetUint16LE (offset value : Nat)
  | opSetUint32LE (offset value : Nat)
  | opSetUint32BE (offset value : Nat)

/-- Running one `WavHeaderBase` operation on a codec state. -/
def applyHeaderOp (hb : WavHeaderBase) : HeaderOp → WavHeaderBase
  | .opWriteHeader c r b n => (writeHeader hb c r b n).2
  | .opSetDataSize n => setDataSize hb n
  | .opSetUint16LE off v => setUint16LE hb off v
  | .opSetUint32LE off v => setUint32LE hb off v
  | .opSetUint32BE off v => setUint32BE hb off v

/-- The operations of the `SdFatWavWriter` public interface that mutate the
object, used to quantify over every reachable writer state. -/
inductive WriterOp where
  | opStartFile (f : FatFile)
  | opUpdateHeaderFromLength (f : FatFile)
  | opWithNumChannels (numChannels : Nat)
  | opWithSampleRate (sampleRate : Nat)
  | opWithBitsPerSample (bitsPerSample : Nat)

/-- Running one `SdFatWavWriter` operation on a writer state. -/
def applyWriterOp (w : SdFatWavWriter) : WriterOp → SdFatWavWriter
  | .opStartFile f => (startFile w f).2.1
  | .opUpdateHeaderFromLength f => (updateHeaderFromLength w f).2.1
  | .opWithNumChannels c => withNumChannels w c
  | .opWithSampleRate r => withSampleRate w r
  | .opWithBitsPerSample b => withBitsPerSample w b

/-- A chunk of a RIFF container at the logical level: a 32-bit tag and the
payload bytes. -/
structure Chunk where
  tag : Nat
  payload : List Nat
deriving DecidableEq

/-- The serialized form of a chunk: 4-byte big-endian tag, 4-byte little-endian
payload length, then the payload. -/
def chunkBytes (ch : Chunk) : List Nat :=
  u32BEbytes ch.tag ++ (u32LEbytes ch.payload.length ++ ch.payload)

/-- The serialized form of a sequence of chunks. -/
def chunksBytes : List Chunk → List Nat
  | [] => []
  | ch :: rest => chunkBytes ch ++ chunksBytes rest

/-- A chunk whose tag and payload length fit their 32-bit fields. -/
def chunkWF (ch : Chunk) : Prop :=
  ch.tag < 4294967296 ∧ ch.payload.length < 4294967296

/-- The chunk scan as the specification words it, over logical chunks: at each
chunk position, on a tag match report `(position + 8, payload length)`,
otherwise advance by `8 + length` and continue; not-found past the end. -/
def scanChunksSpec (id : Nat) : List Chunk → Nat → Option (Nat × Nat)
  | [], _ => none
  | ch :: rest, pos =>
    if ch.tag = id then some (pos + 8, ch.payload.length)
    else scanChunksSpec id rest (pos + 8 + ch.payload.length)

/-- The 32 header bytes between the fileSize field and the data-chunk length
field (offsets 8 .. 39): `"WAVE"`, the `"fmt "` chunk, and the `"data"` tag.
These bytes depend only on the format parameters, not on the data size. -/
def wavMid32 (numChannels sampleRate bitsPerSample : Nat) : List Nat :=
  u32BEbytes (fourCharStringToValue "WAVE") ++
    (u32BEbytes (fourCharStringToValue "fmt ") ++
      (u32LEbytes 16 ++
        (u16LEbytes 1 ++
          (u16LEbytes numChannels ++
            (u32LEbytes sampleRate ++
              (u32LEbytes (sampleRate * numChannels * bitsPerSample / 8) ++
                (u16LEbytes (numChannels * bitsPerSample / 8) ++
                  (u16LEbytes bitsPerSample ++
                    u32BEbytes (fourCharStringToValue "data")))))))))

section Helpers

lemma fourCC_RIFF : fourCharStringToValue "RIFF" = 1380533830 := by decide

lemma fourCC_WAVE : fourCharStringToValue "WAVE" = 1463899717 := by decide

lemma fourCC_fmt : fourCharStringToValue "fmt " = 1718449184 := by decide

lemma fourCC_data : fourCharStringToValue "data" = 1684108385 := by decide

lemma u32BEbytes_RIFF : u32BEbytes (fourCharStringToValue "RIFF") = [82, 73, 70, 70] := by
  decide

lemma u32BEbytes_WAVE : u32BEbytes (fourCharStringToValue "WAVE") = [87, 65, 86, 69] := by
  decide

lemma u32BEbytes_fmt : u32BEbytes (fourCharStringToValue "fmt ") = [102, 109, 116, 32] := by
  decide

lemma u32BEbytes_data : u32BEbytes (fourCharStringToValue "data") = [100, 97, 116, 97] := by
  decide

lemma length_u16LEbytes (v : Nat) : (u16LEbytes v).length = 2 := rfl

lemma length_u32LEbytes (v : Nat) : (u32LEbytes v).length = 4 := rfl

lemma length_u32BEbytes (v : Nat) : (u32BEbytes v).length = 4 := rfl

lemma setBytes_length (d : List Nat) (off : Nat) (bs : List Nat) :
    (setBytes d off bs).length = d.length := by
  unfold setBytes
  split
  · simp
    omega
  · rfl

lemma setBytes_from_zero (d bs : List Nat) (h : bs.length ≤ d.length) :
    setBytes d 0 bs = bs ++ d.drop bs.length := by
  unfold setBytes
  rw [if_pos (by omega)]
  simp

lemma setBytes_field (a bs t u : List Nat) (off : Nat)
    (hoff : off = a.length) (hlen : u.length = bs.length) :
    setBytes (a ++ (bs ++ t)) off u = a ++ (u ++ t) := by
  subst hoff
  unfold setBytes
  rw [if_pos (by simp; omega)]
  have h1 : (a ++ (bs ++ t)).take a.length = a := List.take_left' rfl
  have h2 : (a ++ (bs ++ t)).drop (a.length + u.length) = t := by
    rw [← List.append_assoc]
    exact List.drop_left' (by simp [hlen])
  rw [h1, h2, List.append_assoc]

lemma byteAt_append_right (a l : List Nat) (i : Nat) (h : a.length ≤ i) :
    byteAt (a ++ l) i = byteAt l (i - a.length) := by
  simp [byteAt, List.getD, List.getElem?_append_right h]

lemma byteAt_append_left (a l : List Nat) (i : Nat) (h : i < a.length) :
    byteAt (a ++ l) i = byteAt a i := by
  simp [byteAt, List.getD, List.getElem?_append_left h]

lemma byteAt_u32LE_0 (v : Nat) (t : List Nat) : byteAt (u32LEbytes v ++ t) 0 = v % 256 := rfl

lemma byteAt_u32LE_1 (v : Nat) (t : List Nat) :
    byteAt (u32LEbytes v ++ t) 1 = v / 256 % 256 := rfl

lemma byteAt_u32LE_2 (v : Nat) (t : List Nat) :
    byteAt (u32LEbytes v ++ t) 2 = v / 65536 % 256 := rfl

lemma byteAt_u32LE_3 (v : Nat) (t : List Nat) :
    byteAt (u32LEbytes v ++ t) 3 = v / 16777216 % 256 := rfl

lemma byteAt_u32BE_0 (v : Nat) (t : List Nat) :
    byteAt (u32BEbytes v ++ t) 0 = v / 16777216 % 256 := rfl

lemma byteAt_u32BE_1 (v : Nat) (t : List Nat) :
    byteAt (u32BEbytes v ++ t) 1 = v / 65536 % 256 := rfl

lemma byteAt_u32BE_2 (v : Nat) (t : List Nat) :
    byteAt (u32BEbytes v ++ t) 2 = v / 256 % 256 := rfl

lemma byteAt_u32BE_3 (v : Nat) (t : List Nat) : byteAt (u32BEbytes v ++ t) 3 = v % 256 := rfl

lemma getU32LEAt_at (a t : List Nat) (v : Nat) :
    getU32LEAt (a ++ (u32LEbytes v ++ t)) a.length = v % 4294967296 := by
  have h0 : byteAt (a ++ (u32LEbytes v ++ t)) a.length = v % 256 := by
    rw [byteAt_append_right _ _ _ (le_refl _), Nat.sub_self, byteAt_u32LE_0]
  have h1 : byteAt (a ++ (u32LEbytes v ++ t)) (a.length + 1) = v / 256 % 256 := by
    rw [byteAt_append_right _ _ _ (by omega), Nat.add_sub_cancel_left, byteAt_u32LE_1]
  have h2 : byteAt (a ++ (u32LEbytes v ++ t)) (a.length + 2) = v / 65536 % 256 := by
    rw [byteAt_append_right _ _ _ (by omega), Nat.add_sub_cancel_left, byteAt_u32LE_2]
  have h3 : byteAt (a ++ (u32LEbytes v ++ t)) (a.length + 3) = v / 16777216 % 256 := by
    rw [byteAt_append_right _ _ _ (by omega), Nat.add_sub_cancel_left, byteAt_u32LE_3]
  unfold getU32LEAt
  rw [h0, h1, h2, h3]
  omega

lemma getU32BEAt_at (a t : List Nat) (v : Nat) :
    getU32BEAt (a ++ (u32BEbytes v ++ t)) a.length = v % 4294967296 := by
  have h0 : byteAt (a ++ (u32BEbytes v ++ t)) a.length = v / 16777216 % 256 := by
    rw [byteAt_append_right _ _ _ (le_refl _), Nat.sub_self, byteAt_u32BE_0]
  have h1 : byteAt (a ++ (u32BEbytes v ++ t)) (a.length + 1) = v / 65536 % 256 := by
    rw [byteAt_append_right _ _ _ (by omega), Nat.add_sub_cancel_left, byteAt_u32BE_1]
  have h2 : byteAt (a ++ (u32BEbytes v ++ t)) (a.length + 2) = v / 256 % 256 := by
    rw [byteAt_append_right _ _ _ (by omega), Nat.add_sub_cancel_left, byteAt_u32BE_2]
  have h3 : byteAt (a ++ (u32BEbytes v ++ t)) (a.length + 3) = v % 256 := by
    rw [byteAt_append_right _ _ _ (by omega), Nat.add_sub_cancel_left, byteAt_u32BE_3]
  unfold getU32BEAt
  rw [h0, h1, h2, h3]
  omega

lemma getU32LEAt_after4 (a g t : List Nat) (v : Nat) (hg : g.length = 4) :
    getU32LEAt (a ++ (g ++ (u32LEbytes v ++ t))) (a.length + 4) = v % 4294967296 := by
  have h : a ++ (g ++ (u32LEbytes v ++ t)) = (a ++ g) ++ (u32LEbytes v ++ t) := by
    simp
  rw [h, show a.length + 4 = (a ++ g).length by simp [hg]]
  exact getU32LEAt_at _ _ _

lemma findChunkAux_stop (data : List Nat) (id offset : Nat)
    (h : data.length < offset + 8) : findChunkAux data id offset = none := by
  rw [findChunkAux]
  rw [dif_neg (by omega)]

lemma findChunkAux_step (a t : List Nat) (tag sz id : Nat) (off : Nat)
    (hoff : off = a.length) (htag : tag < 4294967296) :
    findChunkAux (a ++ (u32BEbytes tag ++ (u32LEbytes sz ++ t))) id off =
      if tag = id then some (off + 8, sz % 4294967296)
      else
        findChunkAux (a ++ (u32BEbytes tag ++ (u32LEbytes sz ++ t))) id
          (off + 8 + sz % 4294967296) := by
  subst hoff
  have htagread : getU32BEAt (a ++ (u32BEbytes tag ++ (u32LEbytes sz ++ t))) a.length
      = tag := by
    rw [getU32BEAt_at]
    exact Nat.mod_eq_of_lt htag
  have hszread : getU32LEAt (a ++ (u32BEbytes tag ++ (u32LEbytes sz ++ t)))
      (a.length + 4) = sz % 4294967296 :=
    getU32LEAt_after4 a (u32BEbytes tag) t sz (length_u32BEbytes tag)
  rw [findChunkAux]
  rw [dif_pos
    (by simp only [List.length_append, length_u32BEbytes, length_u32LEbytes]; omega)]
  rw [htagread, hszread]

lemma length_wavMid32 (c r b : Nat) : (wavMid32 c r b).length = 32 := by
  simp [wavMid32, length_u16LEbytes, length_u32LEbytes, length_u32BEbytes]

lemma length_wavHeaderBytes (c r b n : Nat) : (wavHeaderBytes c r b n).length = 44 := by
  simp [wavHeaderBytes, length_u16LEbytes, length_u32LEbytes, length_u32BEbytes]

lemma wavHeaderBytes_split (c r b n : Nat) :
    wavHeaderBytes c r b n =
      u32BEbytes (fourCharStringToValue "RIFF") ++
        (u32LEbytes (36 + n) ++ (wavMid32 c r b ++ u32LEbytes n)) := by
  simp [wavHeaderBytes, wavMid32, List.append_assoc]

lemma setDataSize_write (c r b m n : Nat) (tail : List Nat) (cur : Nat) :
    setDataSize ⟨wavHeaderBytes c r b m ++ tail, cur⟩ n =
      ⟨wavHeaderBytes c r b n ++ tail, cur⟩ := by
  unfold setDataSize setUint32LE
  have e1 : wavHeaderBytes c r b m ++ tail =
      (u32BEbytes (fourCharStringToValue "RIFF") ++
        (u32LEbytes (36 + m) ++ wavMid32 c r b)) ++ (u32LEbytes m ++ tail) := by
    rw [wavHeaderBytes_split]
    simp [List.append_assoc]
  have e2 : (u32BEbytes (fourCharStringToValue "RIFF") ++
        (u32LEbytes (36 + m) ++ wavMid32 c r b)) ++ (u32LEbytes n ++ tail) =
      u32BEbytes (fourCharStringToValue "RIFF") ++
        (u32LEbytes (36 + m) ++ (wavMid32 c r b ++ (u32LEbytes n ++ tail))) := by
    simp [List.append_assoc]
  have e3 : u32BEbytes (fourCharStringToValue "RIFF") ++
        (u32LEbytes (36 + n) ++ (wavMid32 c r b ++ (u32LEbytes n ++ tail))) =
      wavHeaderBytes c r b n ++ tail := by
    rw [wavHeaderBytes_split]
    simp [List.append_assoc]
  simp only []
  rw [e1, setBytes_field _ _ _ _ _
        (by simp [length_u32LEbytes, length_u32BEbytes, length_wavMid32])
        (by simp [length_u32LEbytes]),
      e2, setBytes_field _ _ _ _ _ (by simp [length_u32BEbytes])
        (by simp [length_u32LEbytes]),
      e3]

lemma findChunkAux_chunks (id : Nat) :
    ∀ (cs : List Chunk) (a : List Nat), (∀ ch ∈ cs, chunkWF ch) →
      findChunkAux (a ++ chunksBytes cs) id a.length = scanChunksSpec id cs a.length := by
  intro cs
  induction cs with
  | nil =>
    intro a _
    rw [show chunksBytes [] = [] from rfl, List.append_nil]
    rw [show scanChunksSpec id [] a.length = none from rfl]
    exact findChunkAux_stop _ _ _ (by omega)
  | cons ch rest ih =>
    intro a hwf
    have hch := hwf ch (List.mem_cons_self ch rest)
    have hbuf : a ++ chunksBytes (ch :: rest) =
        a ++ (u32BEbytes ch.tag ++ (u32LEbytes ch.payload.length ++
          (ch.payload ++ chunksBytes rest))) := by
      simp [chunksBytes, chunkBytes, List.append_assoc]
    rw [hbuf, findChunkAux_step _ _ _ _ _ _ rfl hch.1,
        Nat.mod_eq_of_lt hch.2]
    rw [show scanChunksSpec id (ch :: rest) a.length =
          if ch.tag = id then some (a.length + 8, ch.payload.length)
          else scanChunksSpec id rest (a.length + 8 + ch.payload.length) from rfl]
    by_cases htag : ch.tag = id
    · rw [if_pos htag, if_pos htag]
    · rw [if_neg htag, if_neg htag]
      have hbuf2 : a ++ (u32BEbytes ch.tag ++ (u32LEbytes ch.payload.length ++
          (ch.payload ++ chunksBytes rest))) =
          (a ++ (u32BEbytes ch.tag ++ (u32LEbytes ch.payload.length ++ ch.payload)))
            ++ chunksBytes rest := by
        simp [List.append_assoc]
      have hlen : a.length + 8 + ch.payload.length =
          (a ++ (u32BEbytes ch.tag ++
            (u32LEbytes ch.payload.length ++ ch.payload))).length := by
        simp [length_u32BEbytes, length_u32LEbytes]
        omega
      rw [hbuf2, hlen, ih _ (fun c hc => hwf c (List.mem_cons_of_mem _ hc))]

lemma scanChunksSpec_none (id : Nat) :
    ∀ (cs : List Chunk) (pos : Nat), (∀ ch ∈ cs, ch.tag ≠ id) →
      scanChunksSpec id cs pos = none := by
  intro cs
  induction cs with
  | nil => intro pos _; rfl
  | cons ch rest ih =>
    intro pos habs
    rw [show scanChunksSpec id (ch :: rest) pos =
          if ch.tag = id then some (pos + 8, ch.payload.length)
          else scanChunksSpec id rest (pos + 8 + ch.payload.length) from rfl]
    rw [if_neg (habs ch (List.mem_cons_self ch rest))]
    exact ih _ (fun c hc => habs c (List.mem_cons_of_mem _ hc))

lemma writeHeader_ok (c r b m : Nat) (d : List Nat) (off : Nat) (h : 44 ≤ d.length) :
    writeHeader ⟨d, off⟩ c r b m =
      (true, ⟨wavHeaderBytes c r b m ++ d.drop 44, 44⟩) := by
  have hg : ¬ d.length < STANDARD_SIZE := by simp only [STANDARD_SIZE]; omega
  simp only [writeHeader]
  rw [if_neg hg,
      setBytes_from_zero _ _ (by rw [length_wavHeaderBytes]; omega),
      length_wavHeaderBytes]
  rfl

end Helpers

/-- Claim C1: for every numChannels, sampleRate, bitsPerSample and
dataSizeInBytes, on a buffer of capacity at least 44, `writeHeader` succeeds,
sets the cursor to 44, and leaves the first 44 buffer bytes equal to the
canonical layout: `"RIFF"`, fileSize = 36 + dataSizeInBytes (32-bit LE),
`"WAVE"`, `"fmt "`, 16 (32-bit LE), audioFormat = 1 (16-bit LE), numChannels
(16-bit LE), sampleRate (32-bit LE), byteRate =
sampleRate·numChannels·bitsPerSample/8 (32-bit LE), blockAlign =
numChannels·bitsPerSample/8 (16-bit LE), bitsPerSample (16-bit LE), `"data"`,
dataSizeInBytes (32-bit LE). -/
theorem writeHeader_canonical_layout (c r b n : Nat) (d : List Nat) (off : Nat)
    (h : 44 ≤ d.length) :
    (writeHeader ⟨d, off⟩ c r b n).1 = true ∧
    (writeHeader ⟨d, off⟩ c r b n).2.bufferOffset = 44 ∧
    (writeHeader ⟨d, off⟩ c r b n).2.data.take 44 =
      [82, 73, 70, 70] ++
      [(36 + n) % 256, (36 + n) / 256 % 256, (36 + n) / 65536 % 256,
        (36 + n) / 16777216 % 256] ++
      [87, 65, 86, 69] ++ [102, 109, 116, 32] ++ [16, 0, 0, 0] ++ [1, 0] ++
      [c % 256, c / 256 % 256] ++
      [r % 256, r / 256 % 256, r / 65536 % 256, r / 16777216 % 256] ++
      [r * c * b / 8 % 256, r * c * b / 8 / 256 % 256, r * c * b / 8 / 65536 % 256,
        r * c * b / 8 / 16777216 % 256] ++
      [c * b / 8 % 256, c * b / 8 / 256 % 256] ++
      [b % 256, b / 256 % 256] ++
      [100, 97, 116, 97] ++
      [n % 256, n / 256 % 256, n / 65536 % 256, n / 16777216 % 256] := by
  rw [writeHeader_ok c r b n d off h]
  refine ⟨rfl, rfl, ?_⟩
  show (wavHeaderBytes c r b n ++ d.drop 44).take 44 = _
  rw [List.take_left' (length_wavHeaderBytes c r b n)]
  simp [wavHeaderBytes, u32BEbytes_RIFF, u32BEbytes_WAVE, u32BEbytes_fmt,
    u32BEbytes_data, u32LEbytes, u16LEbytes]

/-- Witness for C1 at a concrete input. -/
theorem writeHeader_canonical_layout_witness :
    (writeHeader ⟨List.replicate 44 0, 0⟩ 2 22050 16 1000).1 = true ∧
    (writeHeader ⟨List.replicate 44 0, 0⟩ 2 22050 16 1000).2.bufferOffset = 44 :=
  ⟨(writeHeader_canonical_layout 2 22050 16 1000 (List.replicate 44 0) 0 (by simp)).1,
   (writeHeader_canonical_layout 2 22050 16 1000 (List.replicate 44 0) 0 (by simp)).2.1⟩

/-- Claim C2: on a buffer of capacity at least 44, `writeHeader(c, r, b, 0)`
followed by `setDataSize(n)` — once, or twice with the same `n` — produces
exactly the state produced by `writeHeader(c, r, b, n)` alone. -/
theorem writeHeader_setDataSize_roundTrip (c r b n : Nat) (d : List Nat) (off : Nat)
    (h : 44 ≤ d.length) :
    setDataSize (writeHeader ⟨d, off⟩ c r b 0).2 n = (writeHeader ⟨d, off⟩ c r b n).2 ∧
    setDataSize (setDataSize (writeHeader ⟨d, off⟩ c r b 0).2 n) n
      = (writeHeader ⟨d, off⟩ c r b n).2 := by
  rw [writeHeader_ok c r b 0 d off h, writeHeader_ok c r b n d off h]
  refine ⟨?_, ?_⟩
  · exact setDataSize_write c r b 0 n (d.drop 44) 44
  · rw [setDataSize_write c r b 0 n (d.drop 44) 44,
        setDataSize_write c r b n n (d.drop 44) 44]

/-- Witness for C2 at a concrete input. -/
theorem writeHeader_setDataSize_roundTrip_witness :
    setDataSize (writeHeader ⟨List.replicate 44 0, 0⟩ 2 22050 16 0).2 1000
      = (writeHeader ⟨List.replicate 44 0, 0⟩ 2 22050 16 1000).2 :=
  (writeHeader_setDataSize_roundTrip 2 22050 16 1000 (List.replicate 44 0) 0 (by simp)).1

/-- Claim C6: on a buffer of capacity strictly less than 44, `writeHeader`
returns failure and leaves the object — buffer bytes and cursor — untouched;
in particular on a freshly constructed buffer the cursor stays 0. -/
theorem writeHeader_small_buffer_fails (c r b n : Nat) (d : List Nat) (off : Nat)
    (h : d.length < 44) :
    writeHeader ⟨d, off⟩ c r b n = (false, ⟨d, off⟩) ∧
    (writeHeader (mkWavHeaderBase d) c r b n).2.bufferOffset = 0 := by
  have hg : d.length < STANDARD_SIZE := by simpa [STANDARD_SIZE] using h
  constructor
  · simp only [writeHeader]
    rw [if_pos hg]
  · simp only [writeHeader, mkWavHeaderBase]
    rw [if_pos hg]

/-- Witness for C6 at a concrete input (capacity 43). -/
theorem writeHeader_small_buffer_fails_witness :
    writeHeader ⟨List.replicate 43 0, 0⟩ 2 22050 16 0
      = (false, ⟨List.replicate 43 0, 0⟩) :=
  (writeHeader_small_buffer_fails 2 22050 16 0 (List.replicate 43 0) 0 (by simp)).1

/-- Claim C7: on a header produced by `writeHeader`, `setDataSize(n)` sets the
fileSize field (offset 4) to 36 + n and the data-chunk length field
(offset 40) to n, leaves every byte outside those two fields unchanged, and
does not move the cursor or change the capacity. -/
theorem setDataSize_frame (c r b m n : Nat) (d : List Nat) (off : Nat)
    (h : 44 ≤ d.length) :
    (setDataSize (writeHeader ⟨d, off⟩ c r b m).2 n).bufferOffset
        = (writeHeader ⟨d, off⟩ c r b m).2.bufferOffset ∧
    (setDataSize (writeHeader ⟨d, off⟩ c r b m).2 n).data.length
        = (writeHeader ⟨d, off⟩ c r b m).2.data.length ∧
    getU32LEAt (setDataSize (writeHeader ⟨d, off⟩ c r b m).2 n).data 4
        = (36 + n) % 4294967296 ∧
    getU32LEAt (setDataSize (writeHeader ⟨d, off⟩ c r b m).2 n).data 40
        = n % 4294967296 ∧
    (∀ i, i < 4 ∨ (8 ≤ i ∧ i < 40) ∨ 44 ≤ i →
      byteAt (setDataSize (writeHeader ⟨d, off⟩ c r b m).2 n).data i
        = byteAt (writeHeader ⟨d, off⟩ c r b m).2.data i) := by
  rw [writeHeader_ok c r b m d off h,
      show ((true, (⟨wavHeaderBytes c r b m ++ d.drop 44, 44⟩ : WavHeaderBase)).2)
        = ⟨wavHeaderBytes c r b m ++ d.drop 44, 44⟩ from rfl,
      setDataSize_write c r b m n (d.drop 44) 44]
  have eSplit : ∀ v : Nat, wavHeaderBytes c r b v ++ d.drop 44 =
      u32BEbytes (fourCharStringToValue "RIFF") ++
        (u32LEbytes (36 + v) ++ (wavMid32 c r b ++ (u32LEbytes v ++ d.drop 44))) := by
    intro v
    rw [wavHeaderBytes_split]
    simp [List.append_assoc]
  have eGrp8 : ∀ v : Nat, wavHeaderBytes c r b v ++ d.drop 44 =
      (u32BEbytes (fourCharStringToValue "RIFF") ++ u32LEbytes (36 + v)) ++
        (wavMid32 c r b ++ (u32LEbytes v ++ d.drop 44)) := by
    intro v
    rw [eSplit v]
    simp [List.append_assoc]
  have eGrp40 : ∀ v : Nat, wavHeaderBytes c r b v ++ d.drop 44 =
      (u32BEbytes (fourCharStringToValue "RIFF") ++
        (u32LEbytes (36 + v) ++ wavMid32 c r b)) ++ (u32LEbytes v ++ d.drop 44) := by
    intro v
    rw [eSplit v]
    simp [List.append_assoc]
  refine ⟨rfl, by simp [length_wavHeaderBytes], ?_, ?_, ?_⟩
  · rw [eSplit n,
        show (4 : Nat) = (u32BEbytes (fourCharStringToValue "RIFF")).length from
          (length_u32BEbytes _).symm]
    exact getU32LEAt_at _ _ _
  · rw [eGrp40 n,
        show (40 : Nat) = (u32BEbytes (fourCharStringToValue "RIFF") ++
            (u32LEbytes (36 + n) ++ wavMid32 c r b)).length by
          simp [length_u32BEbytes, length_u32LEbytes, length_wavMid32]]
    exact getU32LEAt_at _ _ _
  · intro i hi
    rcases hi with hlt | ⟨h8, h40⟩ | h44
    · rw [eSplit n, eSplit m,
          byteAt_append_left _ _ _ (by rw [length_u32BEbytes]; omega),
          byteAt_append_left _ _ _ (by rw [length_u32BEbytes]; omega)]
    · have hside : ∀ v : Nat,
          byteAt (wavHeaderBytes c r b v ++ d.drop 44) i = byteAt (wavMid32 c r b) (i - 8) := by
        intro v
        rw [eGrp8 v,
            byteAt_append_right _ _ _
              (by simp only [List.length_append, length_u32BEbytes, length_u32LEbytes]
                  omega)]
        simp only [List.length_append, length_u32BEbytes, length_u32LEbytes,
          Nat.reduceAdd]
        rw [byteAt_append_left _ _ _ (by rw [length_wavMid32]; omega)]
      rw [hside n, hside m]
    · have hside : ∀ v : Nat,
          byteAt (wavHeaderBytes c r b v ++ d.drop 44) i = byteAt (d.drop 44) (i - 44) := by
        intro v
        rw [byteAt_append_right _ _ _ (by rw [length_wavHeaderBytes]; omega),
            length_wavHeaderBytes]
      rw [hside n, hside m]

lemma findChunkAux_wavHeader (c r b n id2 : Nat) (tail : List Nat) :
    findChunkAux (wavHeaderBytes c r b n ++ tail) id2 12 =
      if fourCharStringToValue "fmt " = id2 then some (20, 16)
      else if fourCharStringToValue "data" = id2 then some (44, n % 4294967296)
      else
        findChunkAux (wavHeaderBytes c r b n ++ tail) id2 (44 + n % 4294967296) := by
  have eFmt : wavHeaderBytes c r b n ++ tail =
      (u32BEbytes (fourCharStringToValue "RIFF") ++
        (u32LEbytes (36 + n) ++ u32BEbytes (fourCharStringToValue "WAVE"))) ++
      (u32BEbytes (fourCharStringToValue "fmt ") ++
        (u32LEbytes 16 ++
          ((u16LEbytes 1 ++ (u16LEbytes c ++ (u32LEbytes r ++
            (u32LEbytes (r * c * b / 8) ++
              (u16LEbytes (c * b / 8) ++ u16LEbytes b))))) ++
            (u32BEbytes (fourCharStringToValue "data") ++
              (u32LEbytes n ++ tail))))) := by
    simp [wavHeaderBytes, List.append_assoc]
  have eData : wavHeaderBytes c r b n ++ tail =
      (u32BEbytes (fourCharStringToValue "RIFF") ++
        (u32LEbytes (36 + n) ++ (u32BEbytes (fourCharStringToValue "WAVE") ++
          (u32BEbytes (fourCharStringToValue "fmt ") ++ (u32LEbytes 16 ++
            (u16LEbytes 1 ++ (u16LEbytes c ++ (u32LEbytes r ++
              (u32LEbytes (r * c * b / 8) ++
                (u16LEbytes (c * b / 8) ++ u16LEbytes b)))))))))) ++
      (u32BEbytes (fourCharStringToValue "data") ++ (u32LEbytes n ++ tail)) := by
    simp [wavHeaderBytes, List.append_assoc]
  have step1 := findChunkAux_step
    (u32BEbytes (fourCharStringToValue "RIFF") ++
      (u32LEbytes (36 + n) ++ u32BEbytes (fourCharStringToValue "WAVE")))
    ((u16LEbytes 1 ++ (u16LEbytes c ++ (u32LEbytes r ++
      (u32LEbytes (r * c * b / 8) ++ (u16LEbytes (c * b / 8) ++ u16LEbytes b))))) ++
      (u32BEbytes (fourCharStringToValue "data") ++ (u32LEbytes n ++ tail)))
    (fourCharStringToValue "fmt ") 16 id2 12
    (by simp [length_u32BEbytes, length_u32LEbytes])
    (by rw [fourCC_fmt]; norm_num)
  have step2 := findChunkAux_step
    (u32BEbytes (fourCharStringToValue "RIFF") ++
      (u32LEbytes (36 + n) ++ (u32BEbytes (fourCharStringToValue "WAVE") ++
        (u32BEbytes (fourCharStringToValue "fmt ") ++ (u32LEbytes 16 ++
          (u16LEbytes 1 ++ (u16LEbytes c ++ (u32LEbytes r ++
            (u32LEbytes (r * c * b / 8) ++
              (u16LEbytes (c * b / 8) ++ u16LEbytes b))))))))))
    tail (fourCharStringToValue "data") n id2 36
    (by simp [length_u32BEbytes, length_u32LEbytes, length_u16LEbytes])
    (by rw [fourCC_data]; norm_num)
  by_cases hfmt : fourCharStringToValue "fmt " = id2
  · rw [if_pos hfmt, eFmt, step1, if_pos hfmt]
  · rw [if_neg hfmt, eFmt, step1, if_neg hfmt,
        show (12 + 8 + 16 % 4294967296 : Nat) = 36 by norm_num,
        ← eFmt, eData, step2]

/-- Witness for C7 at a concrete input. -/
theorem setDataSize_frame_witness :
    getU32LEAt
      (setDataSize (writeHeader ⟨List.replicate 44 0, 0⟩ 2 22050 16 0).2 1000).data 40
      = 1000 % 4294967296 :=
  (setDataSize_frame 2 22050 16 0 1000 (List.replicate 44 0) 0 (by simp)).2.2.2.1

/-- Claim C3: for all valid parameter tuples, after a successful `writeHeader`,
`findChunk("fmt ")` and `findChunk("data")` succeed and locate the chunks at
offsets 12 and 36 (reporting data offsets 12+8 and 36+8) with lengths 16 and
dataSize, and `getDataOffset()` returns 44 regardless of the parameters. -/
theorem findChunk_after_writeHeader (c r b n : Nat) (d : List Nat) (off : Nat)
    (h : 44 ≤ d.length) (hn : n < 4294967296) :
    findChunk (writeHeader ⟨d, off⟩ c r b n).2 (fourCharStringToValue "fmt ")
      = some (12 + 8, 16) ∧
    findChunk (writeHeader ⟨d, off⟩ c r b n).2 (fourCharStringToValue "data")
      = some (36 + 8, n) ∧
    getDataOffset (writeHeader ⟨d, off⟩ c r b n).2 = 44 := by
  rw [writeHeader_ok c r b n d off h]
  refine ⟨?_, ?_, rfl⟩
  · show findChunkAux (wavHeaderBytes c r b n ++ d.drop 44)
      (fourCharStringToValue "fmt ") 12 = some (12 + 8, 16)
    rw [findChunkAux_wavHeader, if_pos rfl]
  · show findChunkAux (wavHeaderBytes c r b n ++ d.drop 44)
      (fourCharStringToValue "data") 12 = some (36 + 8, n)
    rw [findChunkAux_wavHeader,
        if_neg (by rw [fourCC_fmt, fourCC_data]; norm_num), if_pos rfl,
        Nat.mod_eq_of_lt hn]

/-- Witness for C3 at a concrete input. -/
theorem findChunk_after_writeHeader_witness :
    findChunk (writeHeader ⟨List.replicate 44 0, 0⟩ 2 22050 16 1000).2
      (fourCharStringToValue "data") = some (36 + 8, 1000) :=
  (findChunk_after_writeHeader 2 22050 16 1000 (List.replicate 44 0) 0 (by simp)
    (by norm_num)).2.1

/-- Claim C4: on a buffer holding a standard RIFF/WAVE chunk structure (a
12-byte preamble followed by serialized chunks), `findChunk` realizes exactly
the specified scan starting at offset 12 — on a tag match it reports
`(position + 8, declared length)`, otherwise it advances by `8 + length` with
no even-byte padding; hence a tag absent from the buffer yields not-found, and
with an extra unknown chunk before `"data"`, `findChunk("data")` reports the
shifted offset of the data chunk. -/
theorem findChunk_chunk_scan (id o : Nat) (pre : List Nat) (cs : List Chunk)
    (hpre : pre.length = 12) (hwf : ∀ ch ∈ cs, chunkWF ch) :
    findChunk ⟨pre ++ chunksBytes cs, o⟩ id = scanChunksSpec id cs 12 ∧
    ((∀ ch ∈ cs, ch.tag ≠ id) → findChunk ⟨pre ++ chunksBytes cs, o⟩ id = none) ∧
    (∀ extra dataCh : Chunk, chunkWF extra → chunkWF dataCh →
      extra.tag ≠ fourCharStringToValue "data" →
      dataCh.tag = fourCharStringToValue "data" →
      findChunk ⟨pre ++ chunksBytes [extra, dataCh], o⟩ (fourCharStringToValue "data")
        = some (12 + 8 + extra.payload.length + 8, dataCh.payload.length)) := by
  have main : ∀ (id2 : Nat) (cs' : List Chunk), (∀ ch ∈ cs', chunkWF ch) →
      findChunkAux (pre ++ chunksBytes cs') id2 12 = scanChunksSpec id2 cs' 12 := by
    intro id2 cs' hwf'
    have hmain := findChunkAux_chunks id2 cs' pre hwf'
    rw [hpre] at hmain
    exact hmain
  refine ⟨main id cs hwf, ?_, ?_⟩
  · intro habs
    show findChunkAux (pre ++ chunksBytes cs) id 12 = none
    rw [main id cs hwf]
    exact scanChunksSpec_none id cs 12 habs
  · intro extra dataCh hwe hwd hne hda
    show findChunkAux (pre ++ chunksBytes [extra, dataCh])
      (fourCharStringToValue "data") 12 = _
    rw [main (fourCharStringToValue "data") [extra, dataCh] ?memwf]
    · show (if extra.tag = fourCharStringToValue "data"
          then some (12 + 8, extra.payload.length)
          else scanChunksSpec (fourCharStringToValue "data") [dataCh]
            (12 + 8 + extra.payload.length)) = _
      rw [if_neg hne]
      show (if dataCh.tag = fourCharStringToValue "data"
          then some (12 + 8 + extra.payload.length + 8, dataCh.payload.length)
          else scanChunksSpec (fourCharStringToValue "data") []
            (12 + 8 + extra.payload.length + 8 + dataCh.payload.length)) = _
      rw [if_pos hda]
    · intro ch hch
      rcases List.mem_cons.mp hch with h1 | h1
      · exact h1 ▸ hwe
      · rcases List.mem_cons.mp h1 with h2 | h2
        · exact h2 ▸ hwd
        · exact absurd h2 (List.not_mem_nil ch)

/-- Witness for C4 at a concrete input: an unknown 3-byte chunk `"junk"` sits
between the preamble and the data chunk. -/
theorem findChunk_chunk_scan_witness :
    findChunk
      ⟨List.replicate 12 0 ++
        chunksBytes [⟨fourCharStringToValue "junk", [9, 9, 9]⟩,
          ⟨fourCharStringToValue "data", [1, 2]⟩], 0⟩
      (fourCharStringToValue "data")
      = some (12 + 8 + 3 + 8, 2) :=
  (findChunk_chunk_scan (fourCharStringToValue "data") 0 (List.replicate 12 0)
      [⟨fourCharStringToValue "junk", [9, 9, 9]⟩, ⟨fourCharStringToValue "data", [1, 2]⟩]
      (by simp)
      (by intro ch hch; rcases List.mem_cons.mp hch with h1 | h1
          · subst h1; exact ⟨by decide, by decide⟩
          · rcases List.mem_cons.mp h1 with h2 | h2
            · subst h2; exact ⟨by decide, by decide⟩
            · exact absurd h2 (List.not_mem_nil ch))).2.2
    ⟨fourCharStringToValue "junk", [9, 9, 9]⟩ ⟨fourCharStringToValue "data", [1, 2]⟩
    ⟨by decide, by decide⟩ ⟨by decide, by decide⟩ (by decide) rfl

lemma findChunkReadsAux_bounded_fuel (data : List Nat) (id : Nat) :
    ∀ (k offset i : Nat), data.length - offset ≤ k →
      i ∈ findChunkReadsAux data id offset → i < data.length := by
  intro k
  induction k with
  | zero =>
    intro offset i hk hmem
    rw [findChunkReadsAux, dif_neg (by omega)] at hmem
    exact absurd hmem (List.not_mem_nil i)
  | succ k ih =>
    intro offset i hk hmem
    rw [findChunkReadsAux] at hmem
    by_cases hg : offset + 8 ≤ data.length
    · rw [dif_pos hg] at hmem
      by_cases htag : getU32BEAt data offset = id
      · rw [if_pos htag] at hmem
        have := List.mem_range'_1.mp hmem
        omega
      · rw [if_neg htag] at hmem
        rcases List.mem_append.mp hmem with hm | hm
        · have := List.mem_range'_1.mp hm
          omega
        · exact ih (offset + 8 + getU32LEAt data (offset + 4)) i (by omega) hm
    · rw [dif_neg hg] at hmem
      exact absurd hmem (List.not_mem_nil i)

/-- Claim C5: for every buffer content — including adversarial headers whose
declared chunk lengths overrun the buffer, and the empty buffer — the
`findChunk` scan reads only indices strictly inside the buffer (stated via the
read-trace instrumentation `findChunkReadsAux`; termination is witnessed by
the scan being a total function), and it returns not-found whenever the scan
position would read past the buffer's valid extent. -/
theorem findChunk_bounds_safe (data : List Nat) (id : Nat) (o : Nat) :
    (∀ i ∈ findChunkReadsAux data id 12, i < data.length) ∧
    (∀ offset, data.length < offset + 8 → findChunkAux data id offset = none) ∧
    findChunk ⟨[], o⟩ id = none := by
  refine ⟨?_, ?_, ?_⟩
  · intro i hi
    exact findChunkReadsAux_bounded_fuel data id data.length 12 i (by omega) hi
  · intro offset hoff
    exact findChunkAux_stop data id offset hoff
  · show findChunkAux [] id 12 = none
    exact findChunkAux_stop [] id 12 (by simp)

/-- Witness for C5 at a concrete input: a 16-byte buffer whose single chunk
descriptor declares a length (4000000000) far past the end of the buffer. -/
theorem findChunk_bounds_safe_witness :
    findChunk ⟨List.replicate 12 0 ++ [106, 117, 110, 107, 0, 144, 53, 238], 0⟩ 7
      = none := by
  have h := (findChunk_bounds_safe
    (List.replicate 12 0 ++ [106, 117, 110, 107, 0, 144, 53, 238]) 7 0).2.1
  show findChunkAux (List.replicate 12 0 ++ [106, 117, 110, 107, 0, 144, 53, 238]) 7 12
    = none
  rw [findChunkAux, dif_pos (by decide)]
  rw [if_neg (by decide)]
  exact h _ (by decide)

lemma applyHeaderOp_length (hb : WavHeaderBase) (op : HeaderOp) :
    (applyHeaderOp hb op).data.length = hb.data.length := by
  cases op with
  | opWriteHeader c r b n =>
    simp only [applyHeaderOp, writeHeader]
    split
    · rfl
    · simp only [setBytes_length]
  | opSetDataSize n =>
    simp only [applyHeaderOp, setDataSize, setUint32LE, setBytes_length]
  | opSetUint16LE o v => simp only [applyHeaderOp, setUint16LE, setBytes_length]
  | opSetUint32LE o v => simp only [applyHeaderOp, setUint32LE, setBytes_length]
  | opSetUint32BE o v => simp only [applyHeaderOp, setUint32BE, setBytes_length]

lemma applyHeaderOp_cursor_le (hb : WavHeaderBase) (op : HeaderOp)
    (h : hb.bufferOffset ≤ hb.data.length) :
    (applyHeaderOp hb op).bufferOffset ≤ (applyHeaderOp hb op).data.length := by
  cases op with
  | opWriteHeader c r b n =>
    simp only [applyHeaderOp, writeHeader]
    split
    · exact h
    · rename_i hc
      simp only [STANDARD_SIZE] at hc
      simp only [setBytes_length, STANDARD_SIZE]
      omega
  | opSetDataSize n =>
    simp only [applyHeaderOp, setDataSize, setUint32LE, setBytes_length]
    exact h
  | opSetUint16LE o v =>
    simp only [applyHeaderOp, setUint16LE, setBytes_length]
    exact h
  | opSetUint32LE o v =>
    simp only [applyHeaderOp, setUint32LE, setBytes_length]
    exact h
  | opSetUint32BE o v =>
    simp only [applyHeaderOp, setUint32BE, setBytes_length]
    exact h

lemma foldl_applyHeaderOp_cursor_le (ops : List HeaderOp) :
    ∀ hb : WavHeaderBase, hb.bufferOffset ≤ hb.data.length →
      (ops.foldl applyHeaderOp hb).bufferOffset
        ≤ (ops.foldl applyHeaderOp hb).data.length := by
  induction ops with
  | nil => intro hb h; exact h
  | cons op rest ih =>
    intro hb h
    exact ih _ (applyHeaderOp_cursor_le hb op h)

/-- Claim C9: the invariant `bufferOffset ≤ bufferSize` holds in every
reachable state of a header buffer — it holds at construction (cursor 0) and
is preserved by every sequence of interface operations; the cursor-based write
(`writeHeader`) fails on a too-small buffer with no mutation at all, and the
field-level writes never move the cursor and only mutate the buffer when
`offset + fieldWidth ≤ bufferSize`. -/
theorem bufferOffset_invariant (init : List Nat) (ops : List HeaderOp) :
    (ops.foldl applyHeaderOp (mkWavHeaderBase init)).bufferOffset
      ≤ getBufferSize (ops.foldl applyHeaderOp (mkWavHeaderBase init)) ∧
    (∀ (hb : WavHeaderBase) (c r b n : Nat), getBufferSize hb < 44 →
      (writeHeader hb c r b n).1 = false ∧ (writeHeader hb c r b n).2 = hb) ∧
    (∀ (hb : WavHeaderBase) (o v : Nat),
      (setUint16LE hb o v).bufferOffset = hb.bufferOffset ∧
      (setUint32LE hb o v).bufferOffset = hb.bufferOffset ∧
      (setUint32BE hb o v).bufferOffset = hb.bufferOffset) ∧
    (∀ (hb : WavHeaderBase) (o v : Nat),
      (getBufferSize hb < o + 2 → setUint16LE hb o v = hb) ∧
      (getBufferSize hb < o + 4 → setUint32LE hb o v = hb) ∧
      (getBufferSize hb < o + 4 → setUint32BE hb o v = hb)) := by
  refine ⟨?_, ?_, ?_, ?_⟩
  · exact foldl_applyHeaderOp_cursor_le ops (mkWavHeaderBase init) (Nat.zero_le _)
  · intro hb c r b n hlt
    have hc : hb.data.length < STANDARD_SIZE := by
      simp only [getBufferSize] at hlt
      simp only [STANDARD_SIZE]
      omega
    unfold writeHeader
    rw [if_pos hc]
    exact ⟨rfl, rfl⟩
  · intro hb o v
    exact ⟨rfl, rfl, rfl⟩
  · intro hb o v
    simp only [getBufferSize]
    refine ⟨?_, ?_, ?_⟩
    · intro hlt
      show { hb with data := setBytes hb.data o (u16LEbytes v) } = hb
      rw [setBytes, if_neg (by rw [length_u16LEbytes]; omega)]
    · intro hlt
      show { hb with data := setBytes hb.data o (u32LEbytes v) } = hb
      rw [setBytes, if_neg (by rw [length_u32LEbytes]; omega)]
    · intro hlt
      show { hb with data := setBytes hb.data o (u32BEbytes v) } = hb
      rw [setBytes, if_neg (by rw [length_u32BEbytes]; omega)]

/-- Witness for C9 at a concrete input. -/
theorem bufferOffset_invariant_witness :
    ([HeaderOp.opWriteHeader 2 22050 16 0, HeaderOp.opSetDataSize 1000].foldl
        applyHeaderOp (mkWavHeaderBase (List.replicate 44 0))).bufferOffset
      ≤ getBufferSize ([HeaderOp.opWriteHeader 2 22050 16 0,
          HeaderOp.opSetDataSize 1000].foldl applyHeaderOp
          (mkWavHeaderBase (List.replicate 44 0))) ∧
    (writeHeader ⟨List.replicate 43 0, 7⟩ 2 22050 16 0).2 = ⟨List.replicate 43 0, 7⟩ :=
  ⟨(bufferOffset_invariant (List.replicate 44 0)
      [HeaderOp.opWriteHeader 2 22050 16 0, HeaderOp.opSetDataSize 1000]).1,
   ((bufferOffset_invariant [] []).2.1 ⟨List.replicate 43 0, 7⟩ 2 22050 16 0
      (by simp [getBufferSize])).2⟩

lemma applyWriterOp_header_length (w : SdFatWavWriter) (op : WriterOp) :
    (applyWriterOp w op).header.data.length = w.header.data.length := by
  cases op with
  | opStartFile f =>
    show ((startFile w f).2.1).header.data.length = _
    simp only [startFile]
    split
    · exact applyHeaderOp_length w.header
        (HeaderOp.opWriteHeader w.numChannels w.sampleRate w.bitsPerSample 0)
    · exact applyHeaderOp_length w.header
        (HeaderOp.opWriteHeader w.numChannels w.sampleRate w.bitsPerSample 0)
  | opUpdateHeaderFromLength f =>
    show ((updateHeaderFromLength w f).2.1).header.data.length = _
    simp only [updateHeaderFromLength]
    exact applyHeaderOp_length w.header
      (HeaderOp.opSetDataSize (fileSize f - getDataOffset w.header))
  | opWithNumChannels c => rfl
  | opWithSampleRate r => rfl
  | opWithBitsPerSample b => rfl

/-- Claim C10: the `SdFatWavWriter`'s embedded codec buffer has capacity
exactly 44 bytes (`STANDARD_SIZE`) — `getBufferSize()` on the embedded header
returns 44 in every state reachable by writer operations, so the writer's
codec holds only the canonical 44-byte header. -/
theorem writer_header_capacity (c r b : Nat) (init : List Nat)
    (hinit : init.length = 44) (ops : List WriterOp) :
    getBufferSize ((ops.foldl applyWriterOp (mkSdFatWavWriter c r b init)).header)
      = 44 := by
  have hfold : ∀ (ops' : List WriterOp) (w : SdFatWavWriter),
      ((ops'.foldl applyWriterOp w).header).data.length = w.header.data.length := by
    intro ops'
    induction ops' with
    | nil => intro w; rfl
    | cons op rest ih =>
      intro w
      rw [List.foldl_cons, ih, applyWriterOp_header_length]
  show ((ops.foldl applyWriterOp (mkSdFatWavWriter c r b init)).header).data.length = 44
  rw [hfold]
  exact hinit

/-- Witness for C10 at a concrete input. -/
theorem writer_header_capacity_witness :
    getBufferSize
      (([WriterOp.opStartFile ⟨[], 0⟩].foldl applyWriterOp
        (mkSdFatWavWriter 2 22050 16 (List.replicate 44 0))).header) = 44 :=
  writer_header_capacity 2 22050 16 (List.replicate 44 0) (by simp)
    [WriterOp.opStartFile ⟨[], 0⟩]

/-- Claim C8: end-to-end with channels = 2, sampleRate = 22050,
bitsPerSample = 16 — `startFile` on an empty stream leaves exactly the 44
canonical header bytes with fileSize = 36 and dataSize = 0 and the position at
44; after the caller appends 1000 sample bytes, `updateHeaderFromLength`
rewrites the header in place so that dataSize becomes 1000 and fileSize 1036,
while the sample bytes from offset 44 on are unchanged. -/
theorem writer_end_to_end (init samples : List Nat) (hinit : init.length = 44)
    (hsamples : samples.length = 1000) :
    (startFile (mkSdFatWavWriter 2 22050 16 init) ⟨[], 0⟩).1 = true ∧
    (startFile (mkSdFatWavWriter 2 22050 16 init) ⟨[], 0⟩).2.2.contents =
      [82, 73, 70, 70, 36, 0, 0, 0] ++ [87, 65, 86, 69, 102, 109, 116, 32] ++
      [16, 0, 0, 0, 1, 0, 2, 0] ++ [34, 86, 0, 0, 136, 88, 1, 0] ++
      [4, 0, 16, 0, 100, 97, 116, 97] ++ [0, 0, 0, 0] ∧
    (startFile (mkSdFatWavWriter 2 22050 16 init) ⟨[], 0⟩).2.2.pos = 44 ∧
    (updateHeaderFromLength
        (startFile (mkSdFatWavWriter 2 22050 16 init) ⟨[], 0⟩).2.1
        (fileWrite (startFile (mkSdFatWavWriter 2 22050 16 init) ⟨[], 0⟩).2.2
          samples)).2.2.contents =
      ([82, 73, 70, 70, 12, 4, 0, 0] ++ [87, 65, 86, 69, 102, 109, 116, 32] ++
       [16, 0, 0, 0, 1, 0, 2, 0] ++ [34, 86, 0, 0, 136, 88, 1, 0] ++
       [4, 0, 16, 0, 100, 97, 116, 97] ++ [232, 3, 0, 0]) ++ samples ∧
    (updateHeaderFromLength
        (startFile (mkSdFatWavWriter 2 22050 16 init) ⟨[], 0⟩).2.1
        (fileWrite (startFile (mkSdFatWavWriter 2 22050 16 init) ⟨[], 0⟩).2.2
          samples)).2.2.contents.drop 44 = samples := by
  have hw := writeHeader_ok 2 22050 16 0 init 0 (by omega)
  rw [List.drop_eq_nil_of_le (by omega), List.append_nil] at hw
  have htake0 : (wavHeaderBytes 2 22050 16 0).take 44 = wavHeaderBytes 2 22050 16 0 := by
    conv_lhs =>
      rw [show (44 : Nat) = (wavHeaderBytes 2 22050 16 0).length from
        (length_wavHeaderBytes 2 22050 16 0).symm]
    exact List.take_length _
  have hstart : startFile (mkSdFatWavWriter 2 22050 16 init) ⟨[], 0⟩ =
      (true, ⟨2, 22050, 16, ⟨wavHeaderBytes 2 22050 16 0, 44⟩⟩,
        ⟨wavHeaderBytes 2 22050 16 0, 44⟩) := by
    simp only [startFile, mkSdFatWavWriter, mkWavHeaderBase]
    rw [hw, if_pos rfl]
    show (true, (⟨2, 22050, 16, ⟨wavHeaderBytes 2 22050 16 0, 44⟩⟩ : SdFatWavWriter),
        fileWrite ⟨[], 0⟩ ((wavHeaderBytes 2 22050 16 0).take 44)) =
      (true, (⟨2, 22050, 16, ⟨wavHeaderBytes 2 22050 16 0, 44⟩⟩ : SdFatWavWriter),
        (⟨wavHeaderBytes 2 22050 16 0, 44⟩ : FatFile))
    rw [htake0]
    simp only [fileWrite, List.take_nil, List.drop_nil, List.append_nil,
      List.nil_append, Nat.zero_add, length_wavHeaderBytes]
  have happend : fileWrite ⟨wavHeaderBytes 2 22050 16 0, 44⟩ samples =
      ⟨wavHeaderBytes 2 22050 16 0 ++ samples, 44 + samples.length⟩ := by
    simp only [fileWrite]
    rw [htake0, List.drop_eq_nil_of_le (by rw [length_wavHeaderBytes]; omega),
      List.append_nil]
  have hsetds : setDataSize ⟨wavHeaderBytes 2 22050 16 0, 44⟩ 1000 =
      ⟨wavHeaderBytes 2 22050 16 1000, 44⟩ := by
    have h2 := setDataSize_write 2 22050 16 0 1000 [] 44
    rw [List.append_nil, List.append_nil] at h2
    exact h2
  have hupd : updateHeaderFromLength
      (⟨2, 22050, 16, ⟨wavHeaderBytes 2 22050 16 0, 44⟩⟩ : SdFatWavWriter)
      ⟨wavHeaderBytes 2 22050 16 0 ++ samples, 44 + samples.length⟩ =
      (true, ⟨2, 22050, 16, ⟨wavHeaderBytes 2 22050 16 1000, 44⟩⟩,
        ⟨wavHeaderBytes 2 22050 16 1000 ++ samples, 44⟩) := by
    have hds : fileSize ⟨wavHeaderBytes 2 22050 16 0 ++ samples, 44 + samples.length⟩ -
        getDataOffset ⟨wavHeaderBytes 2 22050 16 0, 44⟩ = 1000 := by
      simp [fileSize, getDataOffset, STANDARD_SIZE, length_wavHeaderBytes, hsamples]
    have htake1 : (wavHeaderBytes 2 22050 16 1000).take STANDARD_SIZE =
        wavHeaderBytes 2 22050 16 1000 := by
      simp only [STANDARD_SIZE]
      conv_lhs =>
        rw [show (44 : Nat) = (wavHeaderBytes 2 22050 16 1000).length from
          (length_wavHeaderBytes 2 22050 16 1000).symm]
      exact List.take_length _
    simp only [updateHeaderFromLength]
    rw [hds, hsetds]
    show (true,
        (⟨2, 22050, 16, ⟨wavHeaderBytes 2 22050 16 1000, 44⟩⟩ : SdFatWavWriter),
        fileWrite ⟨wavHeaderBytes 2 22050 16 0 ++ samples, 0⟩
          ((wavHeaderBytes 2 22050 16 1000).take STANDARD_SIZE)) =
      (true,
        (⟨2, 22050, 16, ⟨wavHeaderBytes 2 22050 16 1000, 44⟩⟩ : SdFatWavWriter),
        (⟨wavHeaderBytes 2 22050 16 1000 ++ samples, 44⟩ : FatFile))
    rw [htake1]
    simp only [fileWrite, List.take_zero, List.nil_append, Nat.zero_add,
      length_wavHeaderBytes]
    rw [List.drop_left' (length_wavHeaderBytes 2 22050 16 0)]
  refine ⟨?_, ?_, ?_, ?_, ?_⟩
  · rw [hstart]
  · rw [hstart]
    show wavHeaderBytes 2 22050 16 0 = _
    decide
  · rw [hstart]
  · rw [hstart]
    show (updateHeaderFromLength
        (⟨2, 22050, 16, ⟨wavHeaderBytes 2 22050 16 0, 44⟩⟩ : SdFatWavWriter)
        (fileWrite ⟨wavHeaderBytes 2 22050 16 0, 44⟩ samples)).2.2.contents = _
    rw [happend, hupd]
    show wavHeaderBytes 2 22050 16 1000 ++ samples = _
    rw [show wavHeaderBytes 2 22050 16 1000 =
      [82, 73, 70, 70, 12, 4, 0, 0] ++ [87, 65, 86, 69, 102, 109, 116, 32] ++
      [16, 0, 0, 0, 1, 0, 2, 0] ++ [34, 86, 0, 0, 136, 88, 1, 0] ++
      [4, 0, 16, 0, 100, 97, 116, 97] ++ [232, 3, 0, 0] from by decide]
  · rw [hstart]
    show (updateHeaderFromLength
        (⟨2, 22050, 16, ⟨wavHeaderBytes 2 22050 16 0, 44⟩⟩ : SdFatWavWriter)
        (fileWrite ⟨wavHeaderBytes 2 22050 16 0, 44⟩ samples)).2.2.contents.drop 44 = _
    rw [happend, hupd]
    show (wavHeaderBytes 2 22050 16 1000 ++ samples).drop 44 = samples
    exact List.drop_left' (length_wavHeaderBytes 2 22050 16 1000)

/-- Witness for C8 at a concrete input (1000 zero sample bytes). -/
theorem writer_end_to_end_witness :
    (startFile (mkSdFatWavWriter 2 22050 16 (List.replicate 44 0)) ⟨[], 0⟩).1 = true ∧
    (updateHeaderFromLength
        (startFile (mkSdFatWavWriter 2 22050 16 (List.replicate 44 0)) ⟨[], 0⟩).2.1
        (fileWrite
          (startFile (mkSdFatWavWriter 2 22050 16 (List.replicate 44 0)) ⟨[], 0⟩).2.2
          (List.replicate 1000 0))).2.2.contents.drop 44 = List.replicate 1000 0 :=
  ⟨(writer_end_to_end (List.replicate 44 0) (List.replicate 1000 0)
      (List.length_replicate ..) (List.length_replicate ..)).1,
   (writer_end_to_end (List.replicate 44 0) (List.replicate 1000 0)
      (List.length_replicate ..) (List.length_replicate ..)).2.2.2.2⟩

end SdFatWavRK
